import Mathlib

/-!
Verification of the RPG-game_console text-adventure engine.

Shallow embedding of the game engine sources:
  src/game_engine/engine.py          (GameState, GameEngine, command handlers)
  src/game_engine/command_parser.py  (CommandParser.parse / validate_command)
  src/game_engine/event_manager.py   (EventManager.publish)
  src/models/character.py, item.py, location.py

Python mutable state is translated to explicit state passing.  The Python
engine stores `game_state.current_location` as an alias of an entry of
`self.world`; the embedding keeps the current Location value in the state and
writes mutated current locations back to the world map, which reproduces the
aliasing for every state in which the current location coincides with its
world entry (true of all states the engine constructs).  `random.randint`
draws are passed as explicit integer parameters; theorems hypothesise the
documented ranges.  Event publication (`EventManager.publish`) has no effect
on the game state (engine-registered callbacks only print), so the engine
embedding drops the publish calls; the event bus itself is modelled
separately for the publish/dispatch claims.  The parser's `_command_history`
bookkeeping (append-only log, read by nothing in the engine) is likewise not
part of the modelled state.
-/

namespace RPG

/-! ## Python string primitives (character-list based, kernel-reducible) -/

/-- Python `str.lower()`. -/
def lowerStr (s : String) : String := ⟨s.data.map Char.toLower⟩

/-- Python `str.strip()`: drop whitespace from both ends. -/
def stripStr (s : String) : String :=
  ⟨((s.data.dropWhile Char.isWhitespace).reverse.dropWhile Char.isWhitespace).reverse⟩

/-- Helper for `pyWords`: accumulate the current word (reversed) while
scanning. -/
def wordsAux : List Char → List Char → List String
  | [], acc => if acc.isEmpty then [] else [⟨acc.reverse⟩]
  | c :: rest, acc =>
    if c.isWhitespace then
      if acc.isEmpty then wordsAux rest [] else (⟨acc.reverse⟩ : String) :: wordsAux rest []
    else wordsAux rest (c :: acc)

/-- Python `str.split()` with no argument: split on runs of whitespace,
dropping empty pieces. -/
def pyWords (s : String) : List String := wordsAux s.data []

/-- Helper for `strIn`: contiguous-sublist test on character lists. -/
def subOf (n : List Char) : List Char → Bool
  | [] => n.isEmpty
  | c :: rest => n.isPrefixOf (c :: rest) || subOf n rest

/-- Python `needle in hay` on strings: contiguous substring test. -/
def strIn (needle hay : String) : Bool := subOf needle.data hay.data

/-! ## Data model (src/models/*.py)

Entity (src/models/entity.py is referenced by the models package) contributes
the shared identity fields; they are inlined into each concrete record. -/

/-- Item (src/models/item.py).  The Python `effect` dict is an association
list from effect key to integer magnitude, in insertion order. -/
structure Item where
  entity_id : String
  name : String
  description : String
  item_type : String
  value : Int
  effect : List (String × Int)
  can_equip : Bool
deriving DecidableEq

/-- Character (src/models/character.py).  `max_health` is a class attribute
initialised to 100; level-up assigns it per instance, so it is an ordinary
field here. -/
structure Character where
  id : String
  name : String
  description : String
  health : Int
  max_health : Int
  mana : Int
  strength : Int
  level : Int
  experience : Int
deriving DecidableEq

/-- Enemy dictionaries `{"id", "name", "health", "damage"}` stored in
`Location.enemies` (src/game_engine/engine.py `_create_locations`). -/
structure Enemy where
  id : String
  name : String
  health : Int
  damage : Int
deriving DecidableEq

/-- Location (src/models/location.py).  `exits` is a Python dict
direction → location id, kept as an association list in insertion order. -/
structure Location where
  id : String
  name : String
  description : String
  exits : List (String × String)
  items : List String
  enemies : List Enemy
  is_locked : Bool
deriving DecidableEq

/-- GameState (src/game_engine/engine.py).  `visited_locations` is a Python
set, modelled as a duplicate-free list in insertion order. -/
structure GameState where
  player : Character
  current_location : Location
  inventory : List Item
  game_status : String
  visited_locations : List String
deriving DecidableEq

/-- Payload of the `data` entry of a handler's result dict. -/
inductive RData where
  | noData
  | moveData (location : String) (exits : List String)
  | itemData (item : String)
  | useData (item : String) (effect : List (String × Int))
  | invData (items : List String)
  | statsData (health max_health mana strength level experience : Int)
  | attackData (enemy_health : Int)
deriving DecidableEq

/-- Result dict `{"success", "message", "data"?}` returned by every handler
and by `process_command`. -/
structure Result where
  success : Bool
  message : String
  data : RData
deriving DecidableEq

/-- GameEngine state: the world map, the item catalog and the live
GameState (`self.world`, `self.items_db`, `self.game_state`). -/
structure GameEngine where
  world : List (String × Location)
  items_db : List (String × Item)
  game_state : GameState
deriving DecidableEq

/-- Python `set.add`: append if absent. -/
def addVisited (v : List String) (x : String) : List String :=
  if x ∈ v then v else v ++ [x]

/-- Write a mutated current location back: in Python the state's
`current_location` aliases the entry of `self.world` with the same id, so
an in-place mutation is visible through both references. -/
def updWorld (w : List (String × Location)) (l : Location) : List (String × Location) :=
  w.map (fun p => if p.1 = l.id then (p.1, l) else p)

/-- Replace the current location (and its world entry) by a mutated copy. -/
def setCurrent (e : GameEngine) (l : Location) : GameEngine :=
  { e with world := updWorld e.world l,
           game_state := { e.game_state with current_location := l } }

/-! ## Command parser (src/game_engine/command_parser.py) -/

/-- ParsedCommand named tuple. -/
structure ParsedCommand where
  command : String
  args : List String
  raw : String
deriving DecidableEq

/-- CommandParser.COMMANDS: command name → expected argument names. -/
def COMMANDS : List (String × List String) :=
  [("move", ["direction"]),
   ("look", []),
   ("take", ["item_name"]),
   ("drop", ["item_name"]),
   ("use", ["item_name"]),
   ("inventory", []),
   ("i", []),
   ("stats", []),
   ("s", []),
   ("attack", ["target"]),
   ("help", []),
   ("save", []),
   ("load", [])]

/-- CommandParser.ALIASES. -/
def ALIASES : List (String × String) := [("i", "inventory"), ("s", "stats")]

/-- CommandParser.VALID_DIRECTIONS. -/
def VALID_DIRECTIONS : List String := ["north", "south", "east", "west", "up", "down"]

/-- CommandParser.parse: strip, lowercase, split on whitespace; first token
is the command (alias-resolved), the rest are arguments. -/
def parse (input_string : String) : ParsedCommand :=
  let cleaned := lowerStr (stripStr input_string)
  if cleaned = "" then ⟨"", [], input_string⟩
  else
    match pyWords cleaned with
    | [] => ⟨"", [], input_string⟩   -- unreachable: a nonempty stripped string has a word
    | command :: args =>
      ⟨(ALIASES.lookup command).getD command, args, input_string⟩

/-- CommandParser.validate_command: returns Python's `(is_valid, error)`
pair. -/
def validate_command (parsed : ParsedCommand) : Bool × Option String :=
  let command := parsed.command
  if command ≠ "" ∧ (COMMANDS.lookup command).isNone then
    (false, some ("Unknown command: \x27" ++ command ++ "\x27. Type \x27help\x27 for available commands."))
  else if command = "" then
    (false, some "Please enter a command.")
  else
    let expected_args := (COMMANDS.lookup command).getD []
    if parsed.args.length < expected_args.length then
      match expected_args.get? parsed.args.length with
      | some arg_name => (false, some ("Missing argument: " ++ arg_name))
      | none => (false, some ("Command \x27" ++ command ++ "\x27 doesn\x27t take any arguments."))
    else if command = "move" then
      let direction := (parsed.args.head?).getD ""
      if direction ∉ VALID_DIRECTIONS then
        (false, some ("Invalid direction: \x27" ++ direction ++ "\x27. Valid: " ++
          String.intercalate ", " VALID_DIRECTIONS))
      else (true, none)
    else (true, none)

/-- CommandParser.get_command_help (called by handle_help with an
argument). -/
def get_command_help (command : String) : String :=
  match COMMANDS.lookup command with
  | some args =>
      if args ≠ [] then
        command ++ " " ++ String.intercalate " " args ++ " - Use " ++ command ++
          " with " ++ String.intercalate ", " args
      else command ++ " - No arguments needed"
  | none =>
      match ALIASES.lookup command with
      | some real_command => command ++ " is an alias for " ++ real_command
      | none => "Unknown command: " ++ command

/-! ## Command handlers (src/game_engine/engine.py)

Each handler takes its argument list and the engine state and returns the
result dict together with the successor state.  `handle_attack` additionally
takes the two `random.randint` draws as parameters. -/

/-- GameEngine.handle_move. -/
def handle_move (args : List String) (e : GameEngine) : Result × GameEngine :=
  match args with
  | [] => (⟨false, "Move where? Specify a direction (north, south, east, west).", .noData⟩, e)
  | a :: _ =>
    let direction := lowerStr a
    let current_loc := e.game_state.current_location
    match current_loc.exits.lookup direction with
    | none =>
      (⟨false, "You can\x27t go " ++ direction ++ ". Available exits: " ++
        String.intercalate ", " (current_loc.exits.map Prod.fst), .noData⟩, e)
    | some new_location_id =>
      match e.world.lookup new_location_id with
      | none => (⟨false, "Something went wrong. That location doesn\x27t exist.", .noData⟩, e)
      | some new_location =>
        if new_location.is_locked then
          (⟨false, "The " ++ new_location.name ++ " is locked. You need a key.", .noData⟩, e)
        else
          (⟨true,
            "You head " ++ direction ++ "...\n\n" ++ new_location.name ++ "\n" ++
              new_location.description,
            .moveData new_location_id (new_location.exits.map Prod.fst)⟩,
           { e with game_state :=
               { e.game_state with
                   current_location := new_location,
                   visited_locations :=
                     addVisited e.game_state.visited_locations new_location_id } })

/-- GameEngine.handle_look (pure read). -/
def handle_look (_args : List String) (e : GameEngine) : Result × GameEngine :=
  let location := e.game_state.current_location
  let description :=
    "\n=== " ++ location.name ++ " ===\n\n" ++ location.description ++ "\n"
  let description :=
    if location.exits ≠ [] then
      description ++ "\nExits: " ++ String.intercalate ", " (location.exits.map Prod.fst)
    else description
  let description :=
    if location.items ≠ [] then
      let items_in_location :=
        location.items.filterMap (fun item_id => (e.items_db.lookup item_id).map Item.name)
      if items_in_location ≠ [] then
        description ++ "\n\nYou see: " ++ String.intercalate ", " items_in_location
      else description
    else description
  let description :=
    if location.enemies ≠ [] then
      description ++ "\n\nâš”ï¸ DANGER! Enemies here: " ++
        String.intercalate ", " (location.enemies.map Enemy.name)
    else description
  (⟨true, description, .noData⟩, e)

/-- First item id in the location's list whose catalog name or id contains
the query (ids absent from the catalog are skipped), with the catalog item. -/
def findTakeId (db : List (String × Item)) (q : String) : List String → Option (String × Item)
  | [] => none
  | item_id :: rest =>
    match db.lookup item_id with
    | some item =>
      if strIn q (lowerStr item.name) || strIn q (lowerStr item_id) then some (item_id, item)
      else findTakeId db q rest
    | none => findTakeId db q rest

/-- GameEngine.handle_take. -/
def handle_take (args : List String) (e : GameEngine) : Result × GameEngine :=
  match args with
  | [] => (⟨false, "Take what? Specify an item name.", .noData⟩, e)
  | _ :: _ =>
    let item_name := lowerStr (String.intercalate " " args)
    let location := e.game_state.current_location
    match findTakeId e.items_db item_name location.items with
    | none => (⟨false, "There\x27s no \x27" ++ item_name ++ "\x27 here.", .noData⟩, e)
    | some (found_item_id, item) =>
      let e := setCurrent e { location with items := location.items.erase found_item_id }
      let e := { e with game_state :=
                  { e.game_state with inventory := e.game_state.inventory ++ [item] } }
      (⟨true, "You pick up the " ++ item.name ++ ". " ++ item.description,
        .itemData item.name⟩, e)

/-- First inventory index whose item name or entity id contains the query,
with the item (the scan of handle_drop / handle_use). -/
def findInvIdx (q : String) : List Item → Option (Nat × Item)
  | [] => none
  | item :: rest =>
    if strIn q (lowerStr item.name) || strIn q (lowerStr item.entity_id) then some (0, item)
    else (findInvIdx q rest).map (fun p => (p.1 + 1, p.2))

/-- GameEngine.handle_drop. -/
def handle_drop (args : List String) (e : GameEngine) : Result × GameEngine :=
  match args with
  | [] => (⟨false, "Drop what? Specify an item name.", .noData⟩, e)
  | _ :: _ =>
    let item_name := lowerStr (String.intercalate " " args)
    match findInvIdx item_name e.game_state.inventory with
    | none =>
      (⟨false, "You don\x27t have a \x27" ++ item_name ++ "\x27 in your inventory.", .noData⟩, e)
    | some (found_index, found_item) =>
      let e := { e with game_state :=
                  { e.game_state with
                      inventory := e.game_state.inventory.eraseIdx found_index } }
      let location := e.game_state.current_location
      let e := setCurrent e { location with items := location.items ++ [found_item.entity_id] }
      (⟨true, "You drop the " ++ found_item.name ++ ".", .itemData found_item.name⟩, e)

/-- GameEngine.handle_use. -/
def handle_use (args : List String) (e : GameEngine) : Result × GameEngine :=
  match args with
  | [] => (⟨false, "Use what? Specify an item name.", .noData⟩, e)
  | _ :: _ =>
    let item_name := lowerStr (String.intercalate " " args)
    match findInvIdx item_name e.game_state.inventory with
    | none =>
      (⟨false, "You don\x27t have a \x27" ++ item_name ++ "\x27 in your inventory.", .noData⟩, e)
    | some (found_index, found_item) =>
      let player := e.game_state.player
      let effect := found_item.effect
      if effect = [] then
        (⟨false, "The " ++ found_item.name ++ " can\x27t be used.", .noData⟩, e)
      else
        let healPart : List String × Character :=
          match effect.lookup "heal" with
          | some heal_amount =>
            let old_health := player.health
            let new_health := min (player.health + heal_amount) player.max_health
            let actual_heal := new_health - old_health
            (["You heal for " ++ toString actual_heal ++ " HP!"],
             { player with health := new_health })
          | none => ([], player)
        let player := healPart.2
        let manaPart : List String × Character :=
          match effect.lookup "mana" with
          | some mana_amount =>
            (["You restore " ++ toString mana_amount ++ " mana!"],
             { player with mana := min (player.mana + mana_amount) 100 })
          | none => ([], player)
        let player := manaPart.2
        let strengthPart : List String × Character :=
          match effect.lookup "strength_boost" with
          | some boost =>
            (["You feel stronger! +" ++ toString boost ++ " strength!"],
             { player with strength := player.strength + boost })
          | none => ([], player)
        let player := strengthPart.2
        let consumed := found_item.item_type ∈ ["potion", "treasure"]
        let inventory :=
          if consumed then e.game_state.inventory.eraseIdx found_index
          else e.game_state.inventory
        let consumePart : List String :=
          if consumed then ["(The " ++ found_item.name ++ " has been used up.)"] else []
        let messages := healPart.1 ++ manaPart.1 ++ strengthPart.1 ++ consumePart
        (⟨true, String.intercalate "\n" messages, .useData found_item.name effect⟩,
         { e with game_state :=
             { e.game_state with player := player, inventory := inventory } })

/-- GameEngine.handle_inventory (pure read). -/
def handle_inventory (_args : List String) (e : GameEngine) : Result × GameEngine :=
  let inventory := e.game_state.inventory
  if inventory = [] then (⟨true, "Your inventory is empty.", .noData⟩, e)
  else
    let items_list := inventory.map (fun item =>
      "  - " ++ item.name ++ ": " ++ item.description ++ " (Value: " ++ toString item.value ++ ")")
    (⟨true, "=== Your Inventory ===\n\n" ++ String.intercalate "\n" items_list,
      .invData (inventory.map Item.name)⟩, e)

/-- GameEngine.handle_stats (pure read). -/
def handle_stats (_args : List String) (e : GameEngine) : Result × GameEngine :=
  let player := e.game_state.player
  let message :=
    "=== " ++ player.name ++ "\x27s Stats ===\n\n" ++
    "Health: " ++ toString player.health ++ "/" ++ toString player.max_health ++ "\n" ++
    "Mana: " ++ toString player.mana ++ "\n" ++
    "Strength: " ++ toString player.strength ++ "\n" ++
    "Level: " ++ toString player.level ++ "\n" ++
    "Experience: " ++ toString player.experience ++ "\n\n" ++
    "Location: " ++ e.game_state.current_location.name ++ "\n" ++
    "Inventory: " ++ toString e.game_state.inventory.length ++ " items\n" ++
    "Visited: " ++ toString e.game_state.visited_locations.length ++ " locations"
  (⟨true, message,
    .statsData player.health player.max_health player.mana player.strength
      player.level player.experience⟩, e)

/-- First enemy in the location's list whose name contains the query, with
its index (the scan of handle_attack). -/
def findEnemy (q : String) : List Enemy → Option (Nat × Enemy)
  | [] => none
  | enemy :: rest =>
    if strIn q (lowerStr enemy.name) then some (0, enemy)
    else (findEnemy q rest).map (fun p => (p.1 + 1, p.2))

/-- GameEngine.handle_attack.  `damage_dealt` stands for
`random.randint(strength - 2, strength + 3)` and `exp_gain` for
`random.randint(15, 30)`; the second draw only happens on a kill. -/
def handle_attack (args : List String) (damage_dealt exp_gain : Int)
    (e : GameEngine) : Result × GameEngine :=
  match args with
  | [] => (⟨false, "Attack what? Specify an enemy.", .noData⟩, e)
  | _ :: _ =>
    let target_name := lowerStr (String.intercalate " " args)
    let location := e.game_state.current_location
    match findEnemy target_name location.enemies with
    | none => (⟨false, "There\x27s no " ++ target_name ++ " here to attack.", .noData⟩, e)
    | some (idx, target_enemy) =>
      let player := e.game_state.player
      let target_enemy := { target_enemy with health := target_enemy.health - damage_dealt }
      let enemies := location.enemies.set idx target_enemy
      let message :=
        "You attack the " ++ target_enemy.name ++ " for " ++ toString damage_dealt ++ " damage!"
      if target_enemy.health ≤ 0 then
        let message := message ++ "\n\nðŸŽ‰ You defeated the " ++
          target_enemy.name ++ "!"
        -- Python list.remove: drop the first element equal to the mutated dict
        let enemies := enemies.erase target_enemy
        let player := { player with experience := player.experience + exp_gain }
        let message := message ++ "\nYou gain " ++ toString exp_gain ++ " experience!"
        let new_level := Int.fdiv player.experience 100 + 1
        let leveled := new_level > player.level
        let player :=
          if leveled then
            { player with
                level := new_level,
                max_health := player.max_health + 10,
                health := player.max_health + 10,
                strength := player.strength + 2 }
          else player
        let message :=
          if leveled then
            message ++ "\n\nðŸŽŠ LEVEL UP! You are now level " ++
              toString player.level ++ "!"
          else message
        let message :=
          if enemies = [] then
            message ++ "\n\nAll enemies defeated! The area is now safe."
          else message
        let e := setCurrent e { location with enemies := enemies }
        let e := { e with game_state := { e.game_state with player := player } }
        (⟨true, message, .attackData target_enemy.health⟩, e)
      else
        let enemy_damage := target_enemy.damage   -- dict .get("damage", 5); key always present
        let player := { player with health := player.health - enemy_damage }
        let message := message ++ "\nThe " ++ target_enemy.name ++ " attacks you for " ++
          toString enemy_damage ++ " damage!"
        let died := player.health ≤ 0
        let message :=
          if died then
            message ++ "\n\nðŸ’€ You have been defeated! Game Over."
          else message
        let game_status := if died then "game_over" else e.game_state.game_status
        let e := setCurrent e { location with enemies := enemies }
        let e := { e with game_state :=
                    { e.game_state with player := player, game_status := game_status } }
        (⟨true, message, .attackData target_enemy.health⟩, e)

/-- GameEngine.handle_help. -/
def handle_help (args : List String) (e : GameEngine) : Result × GameEngine :=
  match args with
  | command :: _ => (⟨true, get_command_help (lowerStr command), .noData⟩, e)
  | [] =>
    (⟨true,
      "=== Available Commands ===\n\nMovement:\n  move <direction> - Move in a direction (north, south, east, west)\n  look - Look around the current location\n\nItems:\n  take <item> - Pick up an item\n  drop <item> - Drop an item from inventory\n  use <item> - Use an item (potions, etc.)\n  inventory - Show your inventory\n\nCombat:\n  attack <enemy> - Attack an enemy\n\nInformation:\n  stats - Show your character stats\n  help - Show this help message\n\nGame:\n  save - Save your game\n  load - Load a saved game\n\nExamples:\n  move north\n  take sword\n  use health potion\n  attack goblin\n  stats\n",
      .noData⟩, e)

/-- GameEngine.handle_save (demo stub in the source). -/
def handle_save (_args : List String) (e : GameEngine) : Result × GameEngine :=
  (⟨true, "Game saved! (Demo - not persisted to disk)", .noData⟩, e)

/-- GameEngine.handle_load (demo stub in the source). -/
def handle_load (_args : List String) (e : GameEngine) : Result × GameEngine :=
  (⟨true, "No saved games found. Start a new game!", .noData⟩, e)

/-- GameEngine.process_command: parse, validate, dispatch.  The
`game_state is None` guard of the source cannot fire here because the
embedded engine always carries a state. -/
def process_command (input_string : String) (damage_dealt exp_gain : Int)
    (e : GameEngine) : Result × GameEngine :=
  let parsed := parse input_string
  match validate_command parsed with
  | (false, error_msg) => (⟨false, error_msg.getD "", .noData⟩, e)
  | (true, _) =>
    let args := parsed.args
    match parsed.command with
    | "move" => handle_move args e
    | "look" => handle_look args e
    | "take" => handle_take args e
    | "drop" => handle_drop args e
    | "use" => handle_use args e
    | "inventory" => handle_inventory args e
    | "stats" => handle_stats args e
    | "attack" => handle_attack args damage_dealt exp_gain e
    | "help" => handle_help args e
    | "save" => handle_save args e
    | "load" => handle_load args e
    | command => (⟨false, "Command \x27" ++ command ++ "\x27 not implemented yet.", .noData⟩, e)

/-! ## World construction (GameEngine.initialize_world and helpers) -/

/-- Item catalog built by GameEngine._create_items, keyed by entity id. -/
def items_db : List (String × Item) :=
  [("iron_sword", ⟨"iron_sword", "Iron Sword", "A sturdy iron sword", "weapon", 10, [("attack", 5)], true⟩),
   ("magic_staff", ⟨"magic_staff", "Magic Staff", "A staff imbued with magical power", "weapon", 50, [("attack", 15)], true⟩),
   ("wooden_shield", ⟨"wooden_shield", "Wooden Shield", "A basic wooden shield", "shield", 5, [("defense", 3)], true⟩),
   ("health_potion", ⟨"health_potion", "Health Potion", "Restores 30 health points", "potion", 10, [("heal", 30)], false⟩),
   ("mana_potion", ⟨"mana_potion", "Mana Potion", "Restores 25 mana points", "potion", 10, [("mana", 25)], false⟩),
   ("strength_potion", ⟨"strength_potion", "Strength Potion", "Temporarily increases strength by 5", "potion", 25, [("strength_boost", 5)], false⟩),
   ("gold_coin", ⟨"gold_coin", "Gold Coin", "A shiny gold coin", "treasure", 1, [], false⟩),
   ("ruby", ⟨"ruby", "Ruby", "A precious red gem", "treasure", 100, [], false⟩),
   ("ancient_scroll", ⟨"ancient_scroll", "Ancient Scroll", "Contains mysterious knowledge", "treasure", 50, [], false⟩)]

/-- Locations built by GameEngine._create_locations. -/
def loc_start : Location :=
  ⟨"start", "Forest Clearing",
   "You are in a peaceful forest clearing. Sunlight filters through the trees.",
   [("north", "forest"), ("east", "village")],
   ["iron_sword", "wooden_shield"], [], false⟩

def loc_forest : Location :=
  ⟨"forest", "Dark Forest",
   "The trees are thick here and block most sunlight. You hear strange sounds.",
   [("south", "start"), ("north", "dungeon")],
   ["health_potion", "strength_potion"],
   [⟨"wolf", "Wolf", 30, 10⟩], false⟩

def loc_village : Location :=
  ⟨"village", "Village",
   "A small peaceful village with thatched-roof houses. Villagers go about their daily business.",
   [("west", "start"), ("north", "cave")],
   ["mana_potion", "gold_coin"], [], false⟩

def loc_dungeon : Location :=
  ⟨"dungeon", "Dark Dungeon",
   "A cold, dark dungeon. The walls are damp and you hear growling in the shadows.",
   [("south", "forest"), ("east", "treasure_room")],
   ["magic_staff", "ruby"],
   [⟨"goblin", "Goblin", 40, 15⟩, ⟨"skeleton", "Skeleton", 35, 12⟩], false⟩

def loc_cave : Location :=
  ⟨"cave", "Mysterious Cave",
   "A dark cave with glowing crystals on the walls. Ancient markings cover the walls.",
   [("south", "village")],
   ["ancient_scroll", "health_potion"], [], false⟩

def loc_treasure_room : Location :=
  ⟨"treasure_room", "Treasure Room",
   "A magnificent chamber filled with gold and treasures! But beware - a dragon sleeps here.",
   [("west", "dungeon")],
   ["gold_coin", "ruby", "ruby"],
   [⟨"dragon", "Dragon", 100, 25⟩], false⟩

/-- World map in insertion order. -/
def world0 : List (String × Location) :=
  [("start", loc_start), ("forest", loc_forest), ("village", loc_village),
   ("dungeon", loc_dungeon), ("cave", loc_cave), ("treasure_room", loc_treasure_room)]

/-- Player created by initialize_world; `max_health` is the Character class
attribute 100. -/
def player0 : Character :=
  ⟨"player_1", "Hero", "A brave adventurer", 100, 100, 50, 10, 1, 0⟩

/-- Engine state right after GameEngine.initialize_world. -/
def initEngine : GameEngine :=
  ⟨world0, items_db, ⟨player0, loc_start, [], "playing", ["start"]⟩⟩

/-- Run a script of raw commands, each with its randint draws, from a state. -/
def runCmds (e : GameEngine) : List (String × Int × Int) → GameEngine
  | [] => e
  | (raw, d, x) :: rest => runCmds (process_command raw d x e).2 rest

/-! ## Event bus (src/game_engine/event_manager.py)

GameEvent carries a type and a data dict (the `datetime` timestamp is not
modelled).  A callback observes the event and may update an observer state
of type `σ` or raise; raising is modelled by `Except.error`. -/

/-- GameEvent record (type and data; the wall-clock timestamp is outside the
embedding). -/
structure GameEvent where
  type : String
  data : List (String × String)
deriving DecidableEq

/-- Invoke callbacks in order; a raising callback leaves the observer state
as it was before that callback and the loop continues (the `try/except`
inside EventManager.publish). -/
def runCallbacks {σ : Type} (event : GameEvent) :
    List (GameEvent → σ → Except String σ) → σ → σ
  | [], s => s
  | cb :: rest, s =>
    runCallbacks event rest
      (match cb event s with
       | .ok s' => s'
       | .error _ => s)

/-- EventManager.publish: construct the event, notify every subscribed
callback in subscription order, return the constructed event. -/
def publish {σ : Type} (callbacks : List (GameEvent → σ → Except String σ))
    (event_type : String) (data : List (String × String)) (s : σ) : GameEvent × σ :=
  let event : GameEvent := ⟨event_type, data⟩
  (event, runCallbacks event callbacks s)

/-- Overwrite only the `game_status` field of the live GameState. -/
def setStatus (st : String) (e : GameEngine) : GameEngine :=
  { e with game_state := { e.game_state with game_status := st } }

/-! ## Helper lemmas -/

theorem lookup_mem {α β : Type} [DecidableEq α] {k : α} {v : β} :
    ∀ {l : List (α × β)}, l.lookup k = some v → (k, v) ∈ l := by
  intro l
  induction l with
  | nil => intro h; simp [List.lookup] at h
  | cons p rest ih =>
    obtain ⟨p1, p2⟩ := p
    intro h
    rw [List.lookup] at h
    by_cases hk : k = p1
    · subst hk
      simp only [beq_self_eq_true] at h
      injection h with h
      subst h
      exact List.mem_cons_self _ _
    · simp only [beq_false_of_ne hk] at h
      exact List.mem_cons_of_mem _ (ih h)

/-- Atomicity of handle_move: a failure result leaves the engine unchanged. -/
theorem handle_move_fail (a : List String) (e : GameEngine) :
    (handle_move a e).1.success = false → (handle_move a e).2 = e := by
  cases a with
  | nil => intro _; rfl
  | cons d rest =>
    simp only [handle_move]
    cases h1 : (e.game_state.current_location.exits.lookup (lowerStr d)) with
    | none => intro _; rfl
    | some dest =>
      cases h2 : e.world.lookup dest with
      | none => simp [h2]
      | some loc =>
        by_cases h3 : loc.is_locked <;> simp [h2, h3]

/-- Atomicity of handle_take. -/
theorem handle_take_fail (a : List String) (e : GameEngine) :
    (handle_take a e).1.success = false → (handle_take a e).2 = e := by
  cases a with
  | nil => intro _; rfl
  | cons q rest =>
    simp only [handle_take]
    cases h1 : findTakeId e.items_db (lowerStr (String.intercalate " " (q :: rest)))
        e.game_state.current_location.items with
    | none => intro _; rfl
    | some p => simp

/-- Atomicity of handle_drop. -/
theorem handle_drop_fail (a : List String) (e : GameEngine) :
    (handle_drop a e).1.success = false → (handle_drop a e).2 = e := by
  cases a with
  | nil => intro _; rfl
  | cons q rest =>
    simp only [handle_drop]
    cases h1 : findInvIdx (lowerStr (String.intercalate " " (q :: rest)))
        e.game_state.inventory with
    | none => intro _; rfl
    | some p => simp

/-- Atomicity of handle_use. -/
theorem handle_use_fail (a : List String) (e : GameEngine) :
    (handle_use a e).1.success = false → (handle_use a e).2 = e := by
  cases a with
  | nil => intro _; rfl
  | cons q rest =>
    simp only [handle_use]
    cases h1 : findInvIdx (lowerStr (String.intercalate " " (q :: rest)))
        e.game_state.inventory with
    | none => intro _; rfl
    | some p =>
      by_cases h2 : p.2.effect = [] <;> simp [h2]

/-- Atomicity of handle_attack. -/
theorem handle_attack_fail (a : List String) (d x : Int) (e : GameEngine) :
    (handle_attack a d x e).1.success = false → (handle_attack a d x e).2 = e := by
  cases a with
  | nil => intro _; rfl
  | cons q rest =>
    simp only [handle_attack]
    cases h1 : findEnemy (lowerStr (String.intercalate " " (q :: rest)))
        e.game_state.current_location.enemies with
    | none => intro _; rfl
    | some p =>
      by_cases h2 : p.2.health - d ≤ 0 <;> simp [h2]

/-- Claim C2 core: a failing process_command call leaves the engine
(world, catalog and GameState) untouched. -/
theorem process_command_atomic_aux (raw : String) (d x : Int) (e : GameEngine) :
    (process_command raw d x e).1.success = false → (process_command raw d x e).2 = e := by
  simp only [process_command]
  split
  · intro _; rfl
  · split
    · exact handle_move_fail _ _
    · simp [handle_look]
    · exact handle_take_fail _ _
    · exact handle_drop_fail _ _
    · exact handle_use_fail _ _
    · simp only [handle_inventory]; split <;> simp
    · simp [handle_stats]
    · exact handle_attack_fail _ _ _ _
    · simp only [handle_help]; split <;> simp
    · simp [handle_save]
    · simp [handle_load]
    · intro _; rfl

/-! Per-handler lemmas for claim C10: no handler reads `game_status`; the
only write is handle_attack's `game_over` assignment, which is absorbed by
overwriting the status on both sides. -/

theorem handle_move_status (a : List String) (st : String) (e : GameEngine) :
    (handle_move a (setStatus st e)).1 = (handle_move a e).1 ∧
    setStatus "" (handle_move a (setStatus st e)).2 = setStatus "" (handle_move a e).2 := by
  cases a with
  | nil => exact ⟨rfl, rfl⟩
  | cons dd rest =>
    simp only [handle_move, setStatus]
    cases h1 : e.game_state.current_location.exits.lookup (lowerStr dd) with
    | none => exact ⟨rfl, rfl⟩
    | some dest =>
      cases h2 : e.world.lookup dest with
      | none => simp [h2]
      | some loc =>
        by_cases h3 : loc.is_locked <;> simp [h2, h3]

theorem handle_take_status (a : List String) (st : String) (e : GameEngine) :
    (handle_take a (setStatus st e)).1 = (handle_take a e).1 ∧
    setStatus "" (handle_take a (setStatus st e)).2 = setStatus "" (handle_take a e).2 := by
  cases a with
  | nil => exact ⟨rfl, rfl⟩
  | cons q rest =>
    simp only [handle_take, setStatus, setCurrent, updWorld]
    cases h1 : findTakeId e.items_db (lowerStr (String.intercalate " " (q :: rest)))
        e.game_state.current_location.items with
    | none => exact ⟨rfl, rfl⟩
    | some p => simp

theorem handle_drop_status (a : List String) (st : String) (e : GameEngine) :
    (handle_drop a (setStatus st e)).1 = (handle_drop a e).1 ∧
    setStatus "" (handle_drop a (setStatus st e)).2 = setStatus "" (handle_drop a e).2 := by
  cases a with
  | nil => exact ⟨rfl, rfl⟩
  | cons q rest =>
    simp only [handle_drop, setStatus, setCurrent, updWorld]
    cases h1 : findInvIdx (lowerStr (String.intercalate " " (q :: rest)))
        e.game_state.inventory with
    | none => exact ⟨rfl, rfl⟩
    | some p => simp

theorem handle_use_status (a : List String) (st : String) (e : GameEngine) :
    (handle_use a (setStatus st e)).1 = (handle_use a e).1 ∧
    setStatus "" (handle_use a (setStatus st e)).2 = setStatus "" (handle_use a e).2 := by
  cases a with
  | nil => exact ⟨rfl, rfl⟩
  | cons q rest =>
    simp only [handle_use, setStatus]
    cases h1 : findInvIdx (lowerStr (String.intercalate " " (q :: rest)))
        e.game_state.inventory with
    | none => exact ⟨rfl, rfl⟩
    | some p =>
      by_cases h2 : p.2.effect = [] <;> simp [h2]

theorem handle_attack_status (a : List String) (d x : Int) (st : String) (e : GameEngine) :
    (handle_attack a d x (setStatus st e)).1 = (handle_attack a d x e).1 ∧
    setStatus "" (handle_attack a d x (setStatus st e)).2 =
      setStatus "" (handle_attack a d x e).2 := by
  cases a with
  | nil => exact ⟨rfl, rfl⟩
  | cons q rest =>
    simp only [handle_attack, setStatus, setCurrent, updWorld]
    cases h1 : findEnemy (lowerStr (String.intercalate " " (q :: rest)))
        e.game_state.current_location.enemies with
    | none => exact ⟨rfl, rfl⟩
    | some p =>
      by_cases h2 : p.2.health - d ≤ 0 <;>
        by_cases h3 : e.game_state.player.health - p.2.damage ≤ 0 <;>
          simp [h2, h3]

/-- Claim C10: `game_status` does not gate command processing.  Running any
raw command with the status overridden (e.g. to `game_over`) yields the same
Result, and the two final states agree on every field other than
`game_status` (both sides are compared with the status field blanked). -/
theorem game_status_not_gating (raw : String) (d x : Int) (st : String) (e : GameEngine) :
    (process_command raw d x (setStatus st e)).1 = (process_command raw d x e).1 ∧
    setStatus "" (process_command raw d x (setStatus st e)).2 =
      setStatus "" (process_command raw d x e).2 := by
  simp only [process_command]
  split
  · exact ⟨rfl, rfl⟩
  · split
    · exact handle_move_status _ _ _
    · exact ⟨rfl, rfl⟩
    · exact handle_take_status _ _ _
    · exact handle_drop_status _ _ _
    · exact handle_use_status _ _ _
    · simp only [handle_inventory, setStatus]
      split <;> exact ⟨rfl, rfl⟩
    · exact ⟨rfl, rfl⟩
    · exact handle_attack_status _ _ _ _ _
    · cases hargs : (parse raw).args with
      | nil => exact ⟨rfl, rfl⟩
      | cons c rest => exact ⟨rfl, rfl⟩
    · exact ⟨rfl, rfl⟩
    · exact ⟨rfl, rfl⟩
    · exact ⟨rfl, rfl⟩

/-! Helper list lemmas for the combat and take/drop claims. -/

theorem set_append_len {α : Type} (l₁ : List α) (a b : α) (l₂ : List α) :
    (l₁ ++ a :: l₂).set l₁.length b = l₁ ++ b :: l₂ := by
  induction l₁ with
  | nil => rfl
  | cons hd tl ih =>
    simp [ih]

theorem eraseIdx_append_len {α : Type} (l₁ : List α) (a : α) (l₂ : List α) :
    (l₁ ++ a :: l₂).eraseIdx l₁.length = l₁ ++ l₂ := by
  induction l₁ with
  | nil => rfl
  | cons hd tl ih =>
    simp [ih]

theorem erase_append_len {α : Type} [DecidableEq α] (l₁ : List α) (b : α) (l₂ : List α)
    (h : ∀ y ∈ l₁, y ≠ b) : (l₁ ++ b :: l₂).erase b = l₁ ++ l₂ := by
  induction l₁ with
  | nil => simp
  | cons hd tl ih =>
    have hd_ne : ¬(hd == b) := by
      simpa using h hd (List.mem_cons_self _ _)
    rw [List.cons_append, List.erase_cons_tail hd_ne,
      ih (fun y hy => h y (List.mem_cons_of_mem _ hy))]
    rfl

theorem erase_append_perm {α : Type} [DecidableEq α] {l : List α} {a : α} (h : a ∈ l) :
    List.Perm (l.erase a ++ [a]) l :=
  (List.perm_append_comm).trans (List.perm_cons_erase h).symm

/-- Decomposition of the handle_attack enemy scan: a successful find splits
the enemy list at the first name match. -/
theorem findEnemy_decomp (q : String) :
    ∀ (l : List Enemy) (i : Nat) (en : Enemy),
      findEnemy q l = some (i, en) →
      ∃ l₁ l₂, l = l₁ ++ en :: l₂ ∧ l₁.length = i ∧
        (∀ a ∈ l₁, strIn q (lowerStr a.name) = false) ∧
        strIn q (lowerStr en.name) = true := by
  intro l
  induction l with
  | nil => intro i en h; simp [findEnemy] at h
  | cons hd tl ih =>
    intro i en h
    rw [findEnemy] at h
    by_cases hm : strIn q (lowerStr hd.name) = true
    · rw [if_pos hm] at h
      injection h with h
      rw [Prod.mk.injEq] at h
      obtain ⟨rfl, rfl⟩ := h
      exact ⟨[], tl, rfl, rfl, by simp, hm⟩
    · rw [if_neg hm] at h
      cases hf : findEnemy q tl with
      | none => rw [hf] at h; simp at h
      | some p =>
        obtain ⟨j, en₀⟩ := p
        rw [hf] at h
        simp only [Option.map_some'] at h
        injection h with h
        rw [Prod.mk.injEq] at h
        obtain ⟨rfl, rfl⟩ := h
        obtain ⟨l₁, l₂, hl, hlen, hall, hen⟩ := ih j en₀ hf
        refine ⟨hd :: l₁, l₂, by simp [hl], by simp [hlen], ?_, hen⟩
        intro a ha
        rcases List.mem_cons.mp ha with rfl | ha
        · simpa using hm
        · exact hall a ha

/-- Characterization of handle_attack when the blow is fatal
(`enemy health - damage ≤ 0`). -/
theorem handle_attack_kill (q : String) (rest : List String) (d x : Int) (e : GameEngine)
    (idx : Nat) (en : Enemy)
    (hfind : findEnemy (lowerStr (String.intercalate " " (q :: rest)))
        e.game_state.current_location.enemies = some (idx, en))
    (hkill : en.health - d ≤ 0) :
    (handle_attack (q :: rest) d x e).1.success = true ∧
    (handle_attack (q :: rest) d x e).1.data = RData.attackData (en.health - d) ∧
    (handle_attack (q :: rest) d x e).2.game_state.current_location.enemies =
      e.game_state.current_location.enemies.eraseIdx idx ∧
    (handle_attack (q :: rest) d x e).2.game_state.player =
      (if Int.fdiv (e.game_state.player.experience + x) 100 + 1 > e.game_state.player.level then
        { e.game_state.player with
            experience := e.game_state.player.experience + x,
            level := Int.fdiv (e.game_state.player.experience + x) 100 + 1,
            max_health := e.game_state.player.max_health + 10,
            health := e.game_state.player.max_health + 10,
            strength := e.game_state.player.strength + 2 }
      else { e.game_state.player with experience := e.game_state.player.experience + x }) ∧
    (handle_attack (q :: rest) d x e).2.game_state.inventory = e.game_state.inventory ∧
    (handle_attack (q :: rest) d x e).2.game_state.game_status = e.game_state.game_status := by
  obtain ⟨l₁, l₂, hl, hlen, hall, hen⟩ := findEnemy_decomp _ _ _ _ hfind
  have hset : e.game_state.current_location.enemies.set idx
      { en with health := en.health - d } = l₁ ++ { en with health := en.health - d } :: l₂ := by
    rw [hl, ← hlen]
    exact set_append_len _ _ _ _
  have hne : ∀ y ∈ l₁, y ≠ { en with health := en.health - d } := by
    intro y hy heq
    have hy' := hall y hy
    rw [heq] at hy'
    simp only at hy'
    rw [hy'] at hen
    exact Bool.false_ne_true hen
  have herase : (e.game_state.current_location.enemies.set idx
      { en with health := en.health - d }).erase { en with health := en.health - d } =
      e.game_state.current_location.enemies.eraseIdx idx := by
    rw [hset, erase_append_len _ _ _ hne, hl, ← hlen, eraseIdx_append_len]
  simp only [handle_attack, hfind]
  rw [if_pos hkill]
  refine ⟨rfl, rfl, ?_, ?_, rfl, rfl⟩
  · simp only [setCurrent]
    exact herase
  · by_cases hlev : Int.fdiv (e.game_state.player.experience + x) 100 + 1 >
        e.game_state.player.level
    · rw [if_pos hlev, if_pos hlev]
    · rw [if_neg hlev, if_neg hlev]

/-- Characterization of handle_attack when the enemy survives and
counter-attacks. -/
theorem handle_attack_survive (q : String) (rest : List String) (d x : Int) (e : GameEngine)
    (idx : Nat) (en : Enemy)
    (hfind : findEnemy (lowerStr (String.intercalate " " (q :: rest)))
        e.game_state.current_location.enemies = some (idx, en))
    (hsurv : 0 < en.health - d) :
    (handle_attack (q :: rest) d x e).1.success = true ∧
    (handle_attack (q :: rest) d x e).1.data = RData.attackData (en.health - d) ∧
    (handle_attack (q :: rest) d x e).2.game_state.current_location.enemies =
      e.game_state.current_location.enemies.set idx { en with health := en.health - d } ∧
    (handle_attack (q :: rest) d x e).2.game_state.player =
      { e.game_state.player with health := e.game_state.player.health - en.damage } ∧
    (handle_attack (q :: rest) d x e).2.game_state.inventory = e.game_state.inventory ∧
    (handle_attack (q :: rest) d x e).2.game_state.game_status =
      (if e.game_state.player.health - en.damage ≤ 0 then "game_over"
       else e.game_state.game_status) := by
  have hnkill : ¬ (en.health - d ≤ 0) := by omega
  simp only [handle_attack, hfind]
  rw [if_neg hnkill]
  exact ⟨rfl, rfl, rfl, rfl, rfl, rfl⟩

/-! State-projection lemmas for handlers that do not touch the player. -/

theorem handle_move_player (a : List String) (e : GameEngine) :
    (handle_move a e).2.game_state.player = e.game_state.player := by
  cases a with
  | nil => rfl
  | cons d rest =>
    simp only [handle_move]
    cases h1 : e.game_state.current_location.exits.lookup (lowerStr d) with
    | none => rfl
    | some dest =>
      cases h2 : e.world.lookup dest with
      | none => simp [h2]
      | some loc => by_cases h3 : loc.is_locked <;> simp [h2, h3]

theorem handle_take_player (a : List String) (e : GameEngine) :
    (handle_take a e).2.game_state.player = e.game_state.player := by
  cases a with
  | nil => rfl
  | cons q rest =>
    simp only [handle_take]
    cases h1 : findTakeId e.items_db (lowerStr (String.intercalate " " (q :: rest)))
        e.game_state.current_location.items with
    | none => rfl
    | some p => simp [setCurrent]

theorem handle_drop_player (a : List String) (e : GameEngine) :
    (handle_drop a e).2.game_state.player = e.game_state.player := by
  cases a with
  | nil => rfl
  | cons q rest =>
    simp only [handle_drop]
    cases h1 : findInvIdx (lowerStr (String.intercalate " " (q :: rest)))
        e.game_state.inventory with
    | none => rfl
    | some p => simp [setCurrent]

theorem handle_inventory_state (a : List String) (e : GameEngine) :
    (handle_inventory a e).2 = e := by
  simp only [handle_inventory]
  split <;> rfl

theorem handle_help_state (a : List String) (e : GameEngine) :
    (handle_help a e).2 = e := by
  cases a <;> rfl

/-- Claim C1 (amended), handle_use part: healing clamps to `max_health`, so
the upper bound is preserved. -/
theorem handle_use_health (a : List String) (e : GameEngine)
    (h1 : e.game_state.player.health ≤ e.game_state.player.max_health) :
    (handle_use a e).2.game_state.player.health ≤
      (handle_use a e).2.game_state.player.max_health := by
  cases a with
  | nil => exact h1
  | cons q rest =>
    simp only [handle_use]
    cases hf : findInvIdx (lowerStr (String.intercalate " " (q :: rest)))
        e.game_state.inventory with
    | none => exact h1
    | some p =>
      obtain ⟨i, item⟩ := p
      by_cases heff : item.effect = [] <;>
        cases hheal : item.effect.lookup "heal" <;>
          cases hmana : item.effect.lookup "mana" <;>
            cases hboost : item.effect.lookup "strength_boost" <;>
              simp [heff, hheal, hmana, hboost] <;> exact h1

/-- Claim C1 (amended), handle_attack part: the upper bound survives combat
provided enemy counter-damage is non-negative. -/
theorem handle_attack_health (a : List String) (d x : Int) (e : GameEngine)
    (h1 : e.game_state.player.health ≤ e.game_state.player.max_health)
    (h2 : ∀ en ∈ e.game_state.current_location.enemies, 0 ≤ en.damage) :
    (handle_attack a d x e).2.game_state.player.health ≤
      (handle_attack a d x e).2.game_state.player.max_health := by
  cases a with
  | nil => exact h1
  | cons q rest =>
    cases hf : findEnemy (lowerStr (String.intercalate " " (q :: rest)))
        e.game_state.current_location.enemies with
    | none =>
      simp only [handle_attack, hf]
      exact h1
    | some p =>
      obtain ⟨idx, en⟩ := p
      by_cases hkill : en.health - d ≤ 0
      · obtain ⟨-, -, -, hplayer, -, -⟩ := handle_attack_kill q rest d x e idx en hf hkill
        rw [hplayer]
        by_cases hlev : Int.fdiv (e.game_state.player.experience + x) 100 + 1 >
            e.game_state.player.level
        · rw [if_pos hlev]
        · rw [if_neg hlev]
          exact h1
      · have hs : 0 < en.health - d := by omega
        obtain ⟨-, -, -, hplayer, -, -⟩ := handle_attack_survive q rest d x e idx en hf hs
        rw [hplayer]
        obtain ⟨l₁, l₂, hl, -, -, -⟩ := findEnemy_decomp _ _ _ _ hf
        have hmem : en ∈ e.game_state.current_location.enemies := by
          rw [hl]
          exact List.mem_append_right _ (List.mem_cons_self _ _)
        have hd0 : 0 ≤ en.damage := h2 en hmem
        simp only
        omega

/-- Claim C2: command handlers are atomic.  A call of process_command that
reports `success: false` leaves the whole engine state (player, current
location, inventory, visited set, game_status and every world location's
items and enemies) exactly as it was, and a call that changed any of it
reported `success: true`. -/
theorem handlers_atomic (raw : String) (d x : Int) (e : GameEngine) :
    ((process_command raw d x e).1.success = false → (process_command raw d x e).2 = e) ∧
    ((process_command raw d x e).2 ≠ e → (process_command raw d x e).1.success = true) := by
  refine ⟨process_command_atomic_aux raw d x e, fun hne => ?_⟩
  cases hb : (process_command raw d x e).1.success with
  | false => exact absurd (process_command_atomic_aux raw d x e hb) hne
  | true => rfl

/-- Witness for `handlers_atomic`: taking an absent item fails and leaves
the freshly initialised engine untouched. -/
theorem handlers_atomic_witness :
    (process_command "take banana" 0 0 initEngine).2 = initEngine :=
  (handlers_atomic "take banana" 0 0 initEngine).1 (by decide)

/-- Command script reaching a state with negative player health: one wolf
bite (10) then four dragon counter-attacks (25 each) from full health 100,
with every randint draw inside its legal range (damage 8 ∈ [8, 13] for
strength 10). -/
def c1_script : List (String × Int × Int) :=
  [("move north", 0, 0), ("attack wolf", 8, 20), ("move north", 0, 0), ("move east", 0, 0),
   ("attack dragon", 8, 20), ("attack dragon", 8, 20), ("attack dragon", 8, 20),
   ("attack dragon", 8, 20)]

/-- Counterexample to claim C1 as stated: a reachable state (handlers run
from initialize_world with in-range randint draws) whose player health is
-10, violating `0 ≤ health`; the engine merely flags game_over. -/
theorem health_invariant_counterexample :
    (runCmds initEngine c1_script).game_state.player.health = -10 ∧
    ¬ (0 ≤ (runCmds initEngine c1_script).game_state.player.health ∧
       (runCmds initEngine c1_script).game_state.player.health ≤
         (runCmds initEngine c1_script).game_state.player.max_health) ∧
    (runCmds initEngine c1_script).game_state.game_status = "game_over" := by
  refine ⟨by decide, ?_, by decide⟩
  intro h
  have := h.1
  rw [show (runCmds initEngine c1_script).game_state.player.health = -10 from by decide] at this
  omega

/-- Claim C1 (amended): every handler preserves `health ≤ max_health`
(healing is clamped, level-up heals to full) given non-negative enemy
damage; the lower bound `0 ≤ health` is NOT maintained — see the
counterexample, where a counter-attack drives health to -10. -/
theorem health_upper_bound_preserved (raw : String) (d x : Int) (e : GameEngine)
    (h1 : e.game_state.player.health ≤ e.game_state.player.max_health)
    (h2 : ∀ en ∈ e.game_state.current_location.enemies, 0 ≤ en.damage) :
    (process_command raw d x e).2.game_state.player.health ≤
      (process_command raw d x e).2.game_state.player.max_health := by
  simp only [process_command]
  split
  · exact h1
  · split
    · rw [handle_move_player]
      exact h1
    · exact h1
    · rw [handle_take_player]
      exact h1
    · rw [handle_drop_player]
      exact h1
    · exact handle_use_health _ _ h1
    · rw [handle_inventory_state]
      exact h1
    · exact h1
    · exact handle_attack_health _ _ _ _ h1 h2
    · rw [handle_help_state]
      exact h1
    · exact h1
    · exact h1
    · exact h1

/-- Witness for `health_upper_bound_preserved` at a concrete input. -/
theorem health_upper_bound_preserved_witness :
    (process_command "attack wolf" 9 20
        (runCmds initEngine [("move north", 0, 0)])).2.game_state.player.health ≤
      (process_command "attack wolf" 9 20
        (runCmds initEngine [("move north", 0, 0)])).2.game_state.player.max_health :=
  health_upper_bound_preserved "attack wolf" 9 20 _ (by decide) (by decide)

/-- Claim C3: one combat round against a present enemy.  With the damage
draw in `[strength - 2, strength + 3]` (hence 8..13 at strength 10) the
enemy's health drops by exactly the draw; a kill removes the enemy, adds an
experience draw from `[15, 30]`, and when
`floor(experience / 100) + 1 > level` the player levels up with
`max_health + 10`, health healed to the new maximum, and `strength + 2`,
while otherwise level, max health, health and strength are untouched. -/
theorem attack_round_spec (q : String) (rest : List String) (d x : Int) (e : GameEngine)
    (idx : Nat) (en : Enemy)
    (hfind : findEnemy (lowerStr (String.intercalate " " (q :: rest)))
        e.game_state.current_location.enemies = some (idx, en))
    (hd : e.game_state.player.strength - 2 ≤ d ∧ d ≤ e.game_state.player.strength + 3)
    (_hx : 15 ≤ x ∧ x ≤ 30) :
    (e.game_state.player.strength = 10 → 8 ≤ d ∧ d ≤ 13) ∧
    (handle_attack (q :: rest) d x e).1.success = true ∧
    (0 < en.health - d →
       (handle_attack (q :: rest) d x e).2.game_state.current_location.enemies =
         e.game_state.current_location.enemies.set idx { en with health := en.health - d }) ∧
    (en.health - d ≤ 0 →
       (handle_attack (q :: rest) d x e).2.game_state.current_location.enemies =
         e.game_state.current_location.enemies.eraseIdx idx ∧
       (handle_attack (q :: rest) d x e).2.game_state.player.experience =
         e.game_state.player.experience + x ∧
       (Int.fdiv (e.game_state.player.experience + x) 100 + 1 > e.game_state.player.level →
          (handle_attack (q :: rest) d x e).2.game_state.player.level =
            Int.fdiv (e.game_state.player.experience + x) 100 + 1 ∧
          (handle_attack (q :: rest) d x e).2.game_state.player.max_health =
            e.game_state.player.max_health + 10 ∧
          (handle_attack (q :: rest) d x e).2.game_state.player.health =
            e.game_state.player.max_health + 10 ∧
          (handle_attack (q :: rest) d x e).2.game_state.player.strength =
            e.game_state.player.strength + 2) ∧
       (¬ Int.fdiv (e.game_state.player.experience + x) 100 + 1 > e.game_state.player.level →
          (handle_attack (q :: rest) d x e).2.game_state.player.level =
            e.game_state.player.level ∧
          (handle_attack (q :: rest) d x e).2.game_state.player.max_health =
            e.game_state.player.max_health ∧
          (handle_attack (q :: rest) d x e).2.game_state.player.health =
            e.game_state.player.health ∧
          (handle_attack (q :: rest) d x e).2.game_state.player.strength =
            e.game_state.player.strength)) := by
  refine ⟨fun hs => by omega, ?_, ?_, ?_⟩
  · by_cases hkill : en.health - d ≤ 0
    · exact (handle_attack_kill q rest d x e idx en hfind hkill).1
    · exact (handle_attack_survive q rest d x e idx en hfind (by omega)).1
  · intro hs
    exact (handle_attack_survive q rest d x e idx en hfind hs).2.2.1
  · intro hkill
    obtain ⟨-, -, henem, hplayer, -, -⟩ := handle_attack_kill q rest d x e idx en hfind hkill
    refine ⟨henem, ?_, ?_, ?_⟩
    · rw [hplayer]
      by_cases hlev : Int.fdiv (e.game_state.player.experience + x) 100 + 1 >
          e.game_state.player.level
      · rw [if_pos hlev]
      · rw [if_neg hlev]
    · intro hlev
      rw [hplayer, if_pos hlev]
      exact ⟨rfl, rfl, rfl, rfl⟩
    · intro hlev
      rw [hplayer, if_neg hlev]
      exact ⟨rfl, rfl, rfl, rfl⟩

/-- Concrete state for the claim C3 scenario: player strength 10 with 85
experience facing a Wolf at 8 remaining health. -/
def lowWolfEngine : GameEngine :=
  { initEngine with game_state :=
      { initEngine.game_state with
          player := { player0 with experience := 85 },
          current_location := { loc_forest with enemies := [⟨"wolf", "Wolf", 8, 10⟩] } } }

/-- Witness for `attack_round_spec`: a killing blow (draw 13 at strength
10, experience draw 20) crosses 100 experience and yields level 2 with
`max_health = 110` and `health = 110`. -/
theorem attack_round_spec_witness :
    (handle_attack ["wolf"] 13 20 lowWolfEngine).1.success = true ∧
    (handle_attack ["wolf"] 13 20 lowWolfEngine).2.game_state.player.experience = 105 ∧
    (handle_attack ["wolf"] 13 20 lowWolfEngine).2.game_state.player.level = 2 ∧
    (handle_attack ["wolf"] 13 20 lowWolfEngine).2.game_state.player.max_health = 110 ∧
    (handle_attack ["wolf"] 13 20 lowWolfEngine).2.game_state.player.health = 110 := by
  have h := attack_round_spec "wolf" [] 13 20 lowWolfEngine 0 ⟨"wolf", "Wolf", 8, 10⟩
    (by decide) (by decide) (by decide)
  have hk := h.2.2.2 (by decide)
  have hlev := hk.2.2.1 (by decide)
  refine ⟨h.2.1, ?_, ?_, ?_, ?_⟩
  · rw [hk.2.1]
    decide
  · rw [hlev.1]
    decide
  · rw [hlev.2.1]
    decide
  · rw [hlev.2.2.1]
    decide

/-- Claim C7 (amended): the attack result's data carries the enemy's
post-damage health (original health minus the damage draw), which is ≤ 0 —
but not necessarily 0 — exactly when the enemy was defeated and removed. -/
theorem attack_reports_post_damage_health (q : String) (rest : List String) (d x : Int)
    (e : GameEngine) (idx : Nat) (en : Enemy)
    (hfind : findEnemy (lowerStr (String.intercalate " " (q :: rest)))
        e.game_state.current_location.enemies = some (idx, en)) :
    (handle_attack (q :: rest) d x e).1.success = true ∧
    (handle_attack (q :: rest) d x e).1.data = RData.attackData (en.health - d) ∧
    (en.health - d ≤ 0 →
       (handle_attack (q :: rest) d x e).2.game_state.current_location.enemies =
         e.game_state.current_location.enemies.eraseIdx idx) ∧
    (0 < en.health - d →
       (handle_attack (q :: rest) d x e).2.game_state.current_location.enemies =
         e.game_state.current_location.enemies.set idx { en with health := en.health - d }) := by
  refine ⟨?_, ?_, fun hk => (handle_attack_kill q rest d x e idx en hfind hk).2.2.1,
    fun hs => (handle_attack_survive q rest d x e idx en hfind hs).2.2.1⟩ <;>
    by_cases hkill : en.health - d ≤ 0
  · exact (handle_attack_kill q rest d x e idx en hfind hkill).1
  · exact (handle_attack_survive q rest d x e idx en hfind (by omega)).1
  · exact (handle_attack_kill q rest d x e idx en hfind hkill).2.1
  · exact (handle_attack_survive q rest d x e idx en hfind (by omega)).2.1

/-- Reachable state with the Wolf at 8 health (two hits of 11 from the
fresh engine). -/
def wolfAt8Engine : GameEngine :=
  runCmds initEngine [("move north", 0, 0), ("attack wolf", 11, 20), ("attack wolf", 11, 20)]

/-- Counterexample to claim C7 as stated: the killing blow (draw 10 on a
wolf at 8 health) removes the enemy but the result data reports -2, not 0. -/
theorem attack_report_counterexample :
    (process_command "attack wolf" 10 20 wolfAt8Engine).1.success = true ∧
    (process_command "attack wolf" 10 20 wolfAt8Engine).2.game_state.current_location.enemies
      = [] ∧
    (process_command "attack wolf" 10 20 wolfAt8Engine).1.data = RData.attackData (-2) ∧
    ¬ (process_command "attack wolf" 10 20 wolfAt8Engine).1.data = RData.attackData 0 := by
  decide

/-- Witness for `attack_reports_post_damage_health` at the same concrete
input. -/
theorem attack_reports_post_damage_health_witness :
    (handle_attack ["wolf"] 10 20 wolfAt8Engine).1.data = RData.attackData (8 - 10) :=
  (attack_reports_post_damage_health "wolf" [] 10 20 wolfAt8Engine 0
    ⟨"wolf", "Wolf", 8, 10⟩ (by decide)).2.1

/-! Scan lemmas for handle_take / handle_drop (claim C4). -/

theorem findTakeId_decomp (db : List (String × Item)) (q : String) :
    ∀ (l : List String) (iid : String) (item : Item),
      findTakeId db q l = some (iid, item) →
      iid ∈ l ∧ db.lookup iid = some item ∧
        (strIn q (lowerStr item.name) || strIn q (lowerStr iid)) = true := by
  intro l
  induction l with
  | nil => intro iid item h; simp [findTakeId] at h
  | cons hd tl ih =>
    intro iid item h
    rw [findTakeId] at h
    cases hl : db.lookup hd with
    | none =>
      rw [hl] at h
      obtain ⟨m, lk, mt⟩ := ih _ _ h
      exact ⟨List.mem_cons_of_mem _ m, lk, mt⟩
    | some it =>
      simp only [hl] at h
      by_cases hm : (strIn q (lowerStr it.name) || strIn q (lowerStr hd)) = true
      · rw [if_pos hm] at h
        injection h with h
        rw [Prod.mk.injEq] at h
        obtain ⟨rfl, rfl⟩ := h
        exact ⟨List.mem_cons_self _ _, hl, hm⟩
      · rw [if_neg hm] at h
        obtain ⟨m, lk, mt⟩ := ih _ _ h
        exact ⟨List.mem_cons_of_mem _ m, lk, mt⟩

theorem findInvIdx_append (q : String) (item : Item)
    (hitem : (strIn q (lowerStr item.name) || strIn q (lowerStr item.entity_id)) = true) :
    ∀ inv : List Item,
      (∀ it ∈ inv, (strIn q (lowerStr it.name) || strIn q (lowerStr it.entity_id)) = false) →
      findInvIdx q (inv ++ [item]) = some (inv.length, item) := by
  intro inv
  induction inv with
  | nil =>
    intro _
    rw [List.nil_append, findInvIdx, if_pos hitem]
    rfl
  | cons hd tl ih =>
    intro hall
    rw [List.cons_append, findInvIdx]
    have h0 := hall hd (List.mem_cons_self _ _)
    rw [if_neg (by simp [h0]), ih (fun it hit => hall it (List.mem_cons_of_mem _ hit))]
    simp

/-- Characterization of a successful handle_take. -/
theorem handle_take_char (q : String) (rest : List String) (e : GameEngine)
    (iid : String) (item : Item)
    (hfind : findTakeId e.items_db (lowerStr (String.intercalate " " (q :: rest)))
        e.game_state.current_location.items = some (iid, item)) :
    (handle_take (q :: rest) e).1.success = true ∧
    (handle_take (q :: rest) e).2.game_state.inventory =
      e.game_state.inventory ++ [item] ∧
    (handle_take (q :: rest) e).2.game_state.current_location =
      { e.game_state.current_location with
          items := e.game_state.current_location.items.erase iid } := by
  refine ⟨?_, ?_, ?_⟩ <;> simp [handle_take, hfind, setCurrent]

/-- Characterization of a successful handle_drop. -/
theorem handle_drop_char (q : String) (rest : List String) (e : GameEngine)
    (i : Nat) (item : Item)
    (hfind : findInvIdx (lowerStr (String.intercalate " " (q :: rest)))
        e.game_state.inventory = some (i, item)) :
    (handle_drop (q :: rest) e).1.success = true ∧
    (handle_drop (q :: rest) e).2.game_state.inventory =
      e.game_state.inventory.eraseIdx i ∧
    (handle_drop (q :: rest) e).2.game_state.current_location =
      { e.game_state.current_location with
          items := e.game_state.current_location.items ++ [item.entity_id] } := by
  refine ⟨?_, ?_, ?_⟩ <;> simp [handle_drop, hfind, setCurrent]

/-- Counterexample to claim C4 as stated: from the fresh engine (location
items `["iron_sword", "wooden_shield"]`), `take "iron sword"` followed by
`drop "iron sword"` yields `["wooden_shield", "iron_sword"]` — the dropped
id is appended at the end, so the prior list is not restored. -/
theorem take_drop_counterexample :
    initEngine.game_state.current_location.items = ["iron_sword", "wooden_shield"] ∧
    (process_command "take iron sword" 0 0 initEngine).1.success = true ∧
    (process_command "drop iron sword" 0 0
        (process_command "take iron sword" 0 0 initEngine).2).1.success = true ∧
    (process_command "drop iron sword" 0 0
        (process_command "take iron sword" 0 0 initEngine).2).2.game_state.current_location.items
      = ["wooden_shield", "iron_sword"] ∧
    ¬ ((process_command "drop iron sword" 0 0
        (process_command "take iron sword" 0 0 initEngine).2).2.game_state.current_location.items
      = initEngine.game_state.current_location.items) := by
  decide

/-- Claim C4 (amended): when `take` succeeds and nothing already in the
inventory matches the query, `take` then `drop` restores the inventory
exactly and restores the location's item list up to order (as a multiset):
the taken id is re-appended at the end of the list. -/
theorem take_drop_roundtrip (q : String) (rest : List String) (e : GameEngine)
    (iid : String) (item : Item)
    (hfind : findTakeId e.items_db (lowerStr (String.intercalate " " (q :: rest)))
        e.game_state.current_location.items = some (iid, item))
    (hdb : ∀ p ∈ e.items_db, p.2.entity_id = p.1)
    (hinv : ∀ it ∈ e.game_state.inventory,
        (strIn (lowerStr (String.intercalate " " (q :: rest))) (lowerStr it.name) ||
         strIn (lowerStr (String.intercalate " " (q :: rest))) (lowerStr it.entity_id))
          = false) :
    (handle_take (q :: rest) e).1.success = true ∧
    (handle_drop (q :: rest) (handle_take (q :: rest) e).2).1.success = true ∧
    (handle_drop (q :: rest) (handle_take (q :: rest) e).2).2.game_state.inventory =
      e.game_state.inventory ∧
    List.Perm
      ((handle_drop (q :: rest) (handle_take (q :: rest) e).2).2.game_state.current_location.items)
      e.game_state.current_location.items := by
  obtain ⟨hmem, hlook, hmatch⟩ := findTakeId_decomp _ _ _ _ _ hfind
  have hentity : item.entity_id = iid := hdb (iid, item) (lookup_mem hlook)
  obtain ⟨ht1, ht2, ht3⟩ := handle_take_char q rest e iid item hfind
  have hitem : (strIn (lowerStr (String.intercalate " " (q :: rest))) (lowerStr item.name) ||
      strIn (lowerStr (String.intercalate " " (q :: rest))) (lowerStr item.entity_id)) = true := by
    rw [hentity]
    exact hmatch
  have hfi : findInvIdx (lowerStr (String.intercalate " " (q :: rest)))
      ((handle_take (q :: rest) e).2.game_state.inventory) =
      some (e.game_state.inventory.length, item) := by
    rw [ht2]
    exact findInvIdx_append _ _ hitem _ hinv
  obtain ⟨hd1, hd2, hd3⟩ := handle_drop_char q rest ((handle_take (q :: rest) e).2) _ item hfi
  refine ⟨ht1, hd1, ?_, ?_⟩
  · rw [hd2, ht2]
    have := eraseIdx_append_len e.game_state.inventory item []
    simpa using this
  · rw [hd3]
    simp only [ht3]
    rw [hentity]
    exact erase_append_perm hmem

theorem mem_addVisited (v : List String) (y : String) : y ∈ addVisited v y := by
  simp only [addVisited]
  split
  · assumption
  · exact List.mem_append_right _ (List.mem_cons_self _ _)

/-- Claim C5: move fails (state unchanged) exactly on a missing exit or a
locked destination, and otherwise moves the player to `exits[d]` and adds
it to the visited set; concretely, from the start location `move south`
fails with a message naming "south" and no state change while `move north`
lands in "forest". -/
theorem move_spec (e : GameEngine) (d : String) (rest : List String)
    (hwf : ∀ p ∈ e.game_state.current_location.exits,
        (e.world.lookup p.2).isSome = true) :
    (e.game_state.current_location.exits.lookup (lowerStr d) = none →
       (handle_move (d :: rest) e).1.success = false ∧ (handle_move (d :: rest) e).2 = e) ∧
    (∀ dest, e.game_state.current_location.exits.lookup (lowerStr d) = some dest →
       ∃ loc, e.world.lookup dest = some loc ∧
         (loc.is_locked = true →
            (handle_move (d :: rest) e).1.success = false ∧
            (handle_move (d :: rest) e).2 = e) ∧
         (loc.is_locked = false →
            (handle_move (d :: rest) e).1.success = true ∧
            (handle_move (d :: rest) e).2.game_state.current_location = loc ∧
            dest ∈ (handle_move (d :: rest) e).2.game_state.visited_locations)) ∧
    ((process_command "move south" 0 0 initEngine).1.success = false ∧
     strIn "south" (process_command "move south" 0 0 initEngine).1.message = true ∧
     (process_command "move south" 0 0 initEngine).2 = initEngine ∧
     (process_command "move north" 0 0 initEngine).1.success = true ∧
     (process_command "move north" 0 0 initEngine).2.game_state.current_location.id
       = "forest") := by
  refine ⟨?_, ?_, by decide⟩
  · intro h0
    simp [handle_move, h0]
  · intro dest hdest
    have hw := hwf (lowerStr d, dest) (lookup_mem hdest)
    cases hl : e.world.lookup dest with
    | none => rw [hl] at hw; simp at hw
    | some loc =>
      refine ⟨loc, rfl, ?_, ?_⟩
      · intro hlock
        simp [handle_move, hdest, hl, hlock]
      · intro hlock
        refine ⟨?_, ?_, ?_⟩ <;> simp [handle_move, hdest, hl, hlock]
        exact mem_addVisited _ _

/-- Witness for `move_spec`: `move north` from the fresh engine reaches the
forest and records it as visited. -/
theorem move_spec_witness :
    (handle_move ["north"] initEngine).1.success = true ∧
    (handle_move ["north"] initEngine).2.game_state.current_location = loc_forest ∧
    "forest" ∈ (handle_move ["north"] initEngine).2.game_state.visited_locations := by
  have h := move_spec initEngine "north" [] (by decide)
  obtain ⟨loc, hl, -, hunlocked⟩ := h.2.1 "forest" (by decide)
  have hloc : loc = loc_forest := by
    have h2 : some loc = some loc_forest :=
      hl.symm.trans (by decide : initEngine.world.lookup "forest" = some loc_forest)
    injection h2
  subst hloc
  exact hunlocked (by decide)

/-- Claim C6: using a matched inventory item with an empty effect map is an
error that keeps the item; otherwise effects apply in the fixed order heal
(clamped to max_health), mana (clamped to the fixed cap 100),
strength_boost (permanent strength increase), and afterwards potion and
treasure items are consumed while weapon and shield items stay. -/
theorem use_spec (q : String) (rest : List String) (e : GameEngine)
    (i : Nat) (item : Item)
    (hfind : findInvIdx (lowerStr (String.intercalate " " (q :: rest)))
        e.game_state.inventory = some (i, item)) :
    (item.effect = [] →
       (handle_use (q :: rest) e).1.success = false ∧ (handle_use (q :: rest) e).2 = e) ∧
    (item.effect ≠ [] →
       (handle_use (q :: rest) e).1.success = true ∧
       (handle_use (q :: rest) e).2.game_state.player.health =
         (match item.effect.lookup "heal" with
          | some heal_amount =>
            min (e.game_state.player.health + heal_amount) e.game_state.player.max_health
          | none => e.game_state.player.health) ∧
       ((item.effect.lookup "heal").isSome = true →
          (handle_use (q :: rest) e).2.game_state.player.health ≤
            e.game_state.player.max_health) ∧
       (handle_use (q :: rest) e).2.game_state.player.max_health =
         e.game_state.player.max_health ∧
       (handle_use (q :: rest) e).2.game_state.player.mana =
         (match item.effect.lookup "mana" with
          | some mana_amount => min (e.game_state.player.mana + mana_amount) 100
          | none => e.game_state.player.mana) ∧
       ((item.effect.lookup "mana").isSome = true →
          (handle_use (q :: rest) e).2.game_state.player.mana ≤ 100) ∧
       (handle_use (q :: rest) e).2.game_state.player.strength =
         e.game_state.player.strength + ((item.effect.lookup "strength_boost").getD 0) ∧
       (handle_use (q :: rest) e).2.game_state.inventory =
         (if item.item_type ∈ ["potion", "treasure"] then
            e.game_state.inventory.eraseIdx i
          else e.game_state.inventory) ∧
       (handle_use (q :: rest) e).1.message = String.intercalate "\n"
         ((match item.effect.lookup "heal" with
           | some heal_amount =>
             ["You heal for " ++ toString
                 (min (e.game_state.player.health + heal_amount)
                    e.game_state.player.max_health - e.game_state.player.health) ++ " HP!"]
           | none => []) ++
          (match item.effect.lookup "mana" with
           | some mana_amount => ["You restore " ++ toString mana_amount ++ " mana!"]
           | none => []) ++
          (match item.effect.lookup "strength_boost" with
           | some boost => ["You feel stronger! +" ++ toString boost ++ " strength!"]
           | none => []) ++
          (if item.item_type ∈ ["potion", "treasure"] then
             ["(The " ++ item.name ++ " has been used up.)"]
           else []))) := by
  constructor
  · intro heff
    simp [handle_use, hfind, heff]
  · intro heff
    refine ⟨?_, ?_, ?_, ?_, ?_, ?_, ?_, ?_, ?_⟩ <;>
      cases hheal : item.effect.lookup "heal" <;>
        cases hmana : item.effect.lookup "mana" <;>
          cases hboost : item.effect.lookup "strength_boost" <;>
            simp [handle_use, hfind, heff, hheal, hmana, hboost]

/-- Reachable engine whose inventory holds one Health Potion. -/
def potionEngine : GameEngine :=
  runCmds initEngine [("move north", 0, 0), ("take health potion", 0, 0)]

/-- Witness for `use_spec`: drinking the Health Potion at full health heals
0 (clamped at max_health 100) and consumes the potion. -/
theorem use_spec_witness :
    (handle_use ["health", "potion"] potionEngine).1.success = true ∧
    (handle_use ["health", "potion"] potionEngine).2.game_state.player.health = 100 ∧
    (handle_use ["health", "potion"] potionEngine).2.game_state.inventory = [] := by
  have h := use_spec "health" ["potion"] potionEngine 0
    ⟨"health_potion", "Health Potion", "Restores 30 health points", "potion", 10,
      [("heal", 30)], false⟩ (by decide)
  have h2 := h.2 (by decide)
  refine ⟨h2.1, ?_, ?_⟩
  · rw [h2.2.1]
    decide
  · rw [h2.2.2.2.2.2.2.2.1]
    decide

/-- Witness for `take_drop_roundtrip`: taking and dropping the Iron Sword
from the fresh engine restores the empty inventory and the location's item
multiset. -/
theorem take_drop_roundtrip_witness :
    (handle_drop ["iron", "sword"]
        (handle_take ["iron", "sword"] initEngine).2).2.game_state.inventory =
      initEngine.game_state.inventory ∧
    List.Perm
      ((handle_drop ["iron", "sword"]
          (handle_take ["iron", "sword"] initEngine).2).2.game_state.current_location.items)
      initEngine.game_state.current_location.items := by
  have h := take_drop_roundtrip "iron" ["sword"] initEngine "iron_sword"
    ⟨"iron_sword", "Iron Sword", "A sturdy iron sword", "weapon", 10, [("attack", 5)], true⟩
    (by decide) (by decide) (by decide)
  exact ⟨h.2.2.1, h.2.2.2⟩

/-- Claim C8: parse-then-validate rejects empty input, rejects names absent
from the registry after alias resolution (`i`→inventory, `s`→stats),
reports the first unmet argument slot when too few arguments are given, and
for `move` reports an invalid direction exactly when the first argument is
not one of the six direction tokens. -/
theorem parser_validate_spec (s : String) :
    ((parse s).command = "" →
       validate_command (parse s) = (false, some "Please enter a command.")) ∧
    ((parse s).command ≠ "" → COMMANDS.lookup (parse s).command = none →
       validate_command (parse s) =
         (false, some ("Unknown command: \x27" ++ (parse s).command ++
           "\x27. Type \x27help\x27 for available commands."))) ∧
    (∀ exp, COMMANDS.lookup (parse s).command = some exp →
       (parse s).args.length < exp.length →
       ∀ nm, exp.get? (parse s).args.length = some nm →
         validate_command (parse s) = (false, some ("Missing argument: " ++ nm))) ∧
    ((parse s).command = "move" → ∀ a rest, (parse s).args = a :: rest →
       (a ∉ VALID_DIRECTIONS →
          validate_command (parse s) = (false, some ("Invalid direction: \x27" ++ a ++
            "\x27. Valid: " ++ String.intercalate ", " VALID_DIRECTIONS))) ∧
       (a ∈ VALID_DIRECTIONS → validate_command (parse s) = (true, none))) ∧
    ((parse "i").command = "inventory" ∧ (parse "s").command = "stats") := by
  refine ⟨?_, ?_, ?_, ?_, by decide⟩
  · intro h0
    simp [validate_command, h0]
  · intro h0 h1
    simp [validate_command, h0, h1]
  · intro exp hexp hlen nm hnm
    have hne : (parse s).command ≠ "" := by
      intro h0
      rw [h0] at hexp
      rw [(by decide : COMMANDS.lookup "" = none)] at hexp
      exact Option.noConfusion hexp
    simp only [validate_command]
    rw [if_neg (by simp [hexp, hne]), if_neg hne, hexp]
    simp only [Option.getD_some]
    rw [if_pos hlen, hnm]
  · intro hmove a rest hargs
    have hlook : COMMANDS.lookup (parse s).command = some ["direction"] := by
      rw [hmove]
      decide
    constructor
    · intro hdir
      simp only [validate_command]
      rw [if_neg (by simp [hlook]), if_neg (by rw [hmove]; decide), hlook]
      simp only [Option.getD_some]
      rw [if_neg (by rw [hargs]; simp), if_pos hmove]
      rw [hargs]
      simp only [List.head?_cons, Option.getD_some]
      rw [if_pos hdir]
    · intro hdir
      simp only [validate_command]
      rw [if_neg (by simp [hlook]), if_neg (by rw [hmove]; decide), hlook]
      simp only [Option.getD_some]
      rw [if_neg (by rw [hargs]; simp), if_pos hmove]
      rw [hargs]
      simp only [List.head?_cons, Option.getD_some]
      rw [if_neg (not_not_intro hdir)]

/-- Witness for `parser_validate_spec`: "take" with no argument is rejected
naming the slot `item_name`, and "move banana" is an invalid direction. -/
theorem parser_validate_spec_witness :
    validate_command (parse "take") = (false, some "Missing argument: item_name") ∧
    validate_command (parse "move banana") =
      (false, some ("Invalid direction: \x27banana\x27. Valid: " ++
        String.intercalate ", " VALID_DIRECTIONS)) := by
  have h1 := (parser_validate_spec "take").2.2.1 ["item_name"] (by decide) (by decide)
    "item_name" (by decide)
  have h2 := ((parser_validate_spec "move banana").2.2.2.1 (by decide) "banana" []
    (by decide)).1 (by decide)
  exact ⟨h1, h2⟩

/-- Sequential composition of callback invocation (subscription order). -/
theorem runCallbacks_append {σ : Type} (ev : GameEvent)
    (l₁ l₂ : List (GameEvent → σ → Except String σ)) (s : σ) :
    runCallbacks ev (l₁ ++ l₂) s = runCallbacks ev l₂ (runCallbacks ev l₁ s) := by
  induction l₁ generalizing s with
  | nil => rfl
  | cons cb tl ih =>
    rw [List.cons_append, runCallbacks, runCallbacks]
    exact ih _

/-- Claim C9: publish invokes every subscribed handler synchronously in
subscription order; a raising handler is caught (contributing nothing to the
observer state), the remaining handlers still run, nothing propagates to the
caller, and the constructed GameEvent is returned regardless. -/
theorem publish_spec (σ : Type) (pre post : List (GameEvent → σ → Except String σ))
    (f : GameEvent → σ → Except String σ) (m : GameEvent → σ → String)
    (event_type : String) (data : List (String × String)) (s s₀ : σ) (ev : GameEvent)
    (hf : ∀ e st, f e st = Except.error (m e st)) :
    (publish (pre ++ f :: post) event_type data s).1 = ⟨event_type, data⟩ ∧
    runCallbacks ev (pre ++ post) s₀ = runCallbacks ev post (runCallbacks ev pre s₀) ∧
    (publish (pre ++ f :: post) event_type data s).2 =
      runCallbacks ⟨event_type, data⟩ post (runCallbacks ⟨event_type, data⟩ pre s) := by
  refine ⟨rfl, runCallbacks_append ev pre post s₀, ?_⟩
  show runCallbacks ⟨event_type, data⟩ (pre ++ f :: post) s = _
  rw [runCallbacks_append, runCallbacks, hf]

/-- Order-tagged succeeding callback for the publish witness. -/
def logCallback (tag : String) : GameEvent → List String → Except String (List String) :=
  fun event log => Except.ok (log ++ [tag ++ event.type])

/-- Always-raising callback for the publish witness. -/
def failingCallback : GameEvent → List String → Except String (List String) :=
  fun _ _ => Except.error "boom"

/-- Witness for `publish_spec`: with a raising callback between two loggers,
publish still returns the constructed event and both loggers run in order. -/
theorem publish_spec_witness :
    (publish [logCallback "a:", failingCallback, logCallback "b:"]
        "combat_started" [] ([] : List String)).1 = ⟨"combat_started", []⟩ ∧
    (publish [logCallback "a:", failingCallback, logCallback "b:"]
        "combat_started" [] ([] : List String)).2 =
      ["a:combat_started", "b:combat_started"] := by
  have h := publish_spec (List String) [logCallback "a:"] [logCallback "b:"]
    failingCallback (fun _ _ => "boom") "combat_started" [] [] []
    ⟨"combat_started", []⟩ (fun _ _ => rfl)
  exact ⟨h.1, h.2.2.trans (by decide)⟩

end RPG
